import Mathlib

/-!
Verification of the schema-tools event projection and permission compiler.

The definitions below are a shallow embedding of the Python sources:

* `schematools/events/fetchers.py` (field extraction for ADD / MODIFY events),
* `schematools/events/json.py` (the `BlobMaker` / `EventsProcessor` projection),
* `schematools/permissions.py` (grant compilation and role provisioning).

JSON values are modelled by the inductive `Value`; Python dictionaries are
modelled by insertion-ordered association lists (`AList`) with Python's
assignment semantics (`aset` replaces in place, otherwise appends), and
`{**a, **b}` is `amerge a b`.  Fallible Python code (KeyError, IndexError,
AssertionError, failed schema lookups) is modelled with `Except PErr`.

The schema object model (`DatasetSchema`, tables, fields) comes from
`schematools.types`, which is not part of the sources under verification;
the few lookups used by the code under test are modelled from the spec and
marked as such.
-/

set_option autoImplicit false

namespace SchemaTools

/-- A decoded JSON value, as produced by `json.loads` in the event reader. -/
inductive Value where
  | str (s : String)
  | int (n : Int)
  | null
  | bool (b : Bool)
  | arr (elems : List Value)
  | obj (entries : List (String × Value))

/-- `True` exactly for JSON objects (Python `dict` instances). -/
def Value.isObject : Value → Bool
  | .obj _ => true
  | _ => false

/-- `True` exactly for JSON `null` (Python `None`). -/
def Value.isNull : Value → Bool
  | .null => true
  | _ => false

/-- Insertion-ordered association list, modelling a Python `dict`. -/
abbrev AList (α : Type) := List (String × α)

/-- Keys of a dictionary, in insertion order. -/
def akeys {α : Type} (d : AList α) : List String := d.map (fun p => p.1)

/-- Python `d.get(k)` / `d[k]`: first entry with the given key. -/
def aget {α : Type} : AList α → String → Option α
  | [], _ => none
  | (k2, v) :: rest, k => if k2 = k then some v else aget rest k

/-- Python `d[k] = v`: replace the entry in place if present, else append. -/
def aset {α : Type} (d : AList α) (k : String) (v : α) : AList α :=
  if k ∈ akeys d then d.map (fun p => if p.1 = k then (k, v) else p)
  else d ++ [(k, v)]

/-- Python `{**a, **b}`: copy of `a` updated with every entry of `b`. -/
def amerge {α : Type} (a b : AList α) : AList α :=
  b.foldl (fun acc p => aset acc p.1 p.2) a

/-- Last entry with the given key (the value a Python dict built from this
entry list would hold). -/
def agetLast {α : Type} (d : AList α) (k : String) : Option α :=
  aget d.reverse k

/-- The keys of the dictionary are pairwise distinct (true for every dict a
Python program can actually hold). -/
def KeysNodup {α : Type} (d : AList α) : Prop := (akeys d).Nodup

/-- A single-quote character, used by `pyRepr`. -/
def quoteChar : String := String.singleton (Char.ofNat 39)

mutual
/-- Python `repr` of a decoded JSON value (approximated for the container
cases, which no claim exercises: string escaping inside `repr` is elided). -/
def pyRepr : Value → String
  | .str s => quoteChar ++ s ++ quoteChar
  | .int n => toString n
  | .null => "None"
  | .bool b => if b then "True" else "False"
  | .arr l => "[" ++ pyReprList l ++ "]"
  | .obj l => "\x7b" ++ pyReprObj l ++ "\x7d"

/-- Comma-joined `repr` of list elements. -/
def pyReprList : List Value → String
  | [] => ""
  | [v] => pyRepr v
  | v :: rest => pyRepr v ++ ", " ++ pyReprList rest

/-- Comma-joined `repr` of dict entries. -/
def pyReprObj : List (String × Value) → String
  | [] => ""
  | [(k, v)] => quoteChar ++ k ++ quoteChar ++ ": " ++ pyRepr v
  | (k, v) :: rest => quoteChar ++ k ++ quoteChar ++ ": " ++ pyRepr v ++ ", " ++ pyReprObj rest
end

/-- Python `str()` of a decoded JSON value: the string itself for strings,
`repr` otherwise. -/
def pyStr : Value → String
  | .str s => s
  | v => pyRepr v

/-- Python `sub in s` substring test over character lists. -/
def listContainsSub (pat : List Char) : List Char → Bool
  | [] => pat.isEmpty
  | c :: t => pat.isPrefixOf (c :: t) || listContainsSub pat t

/-- Python `pat in s` substring containment on strings. -/
def strContains (s pat : String) : Bool := listContainsSub pat.data s.data

/-- Helper for `pySplit`: split a character list on a separator character,
accumulating the current (reversed) segment. -/
def splitCharsAux (sep : Char) : List Char → List Char → List String
  | [], acc => [String.mk acc.reverse]
  | c :: rest, acc =>
      if c = sep then String.mk acc.reverse :: splitCharsAux sep rest []
      else splitCharsAux sep rest (c :: acc)

/-- Python `s.split(sep)` for a single-character separator (the source only
splits on `":"`). -/
def pySplit (s : String) (sep : Char) : List String := splitCharsAux sep s.data []

/-- The colon character, the separator used on CRS strings. -/
def colonChar : Char := Char.ofNat 58

/-- Python `s.startswith(pre)` over character lists. -/
def pyStartswith (s pre : String) : Bool := pre.data.isPrefixOf s.data

/-! ## Schema object model

Modelled from the spec: the schema documents are loaded by an external
collaborator (`schematools.types`, not among the verified sources); the spec
describes them as a read-only index of field names, declared types,
identifier field lists, geo flags and a per-dataset CRS string. -/

/-- A field of a schema table: name, declared type string, geo flag. -/
structure SchemaField where
  name : String
  type : String
  is_geo : Bool
deriving DecidableEq, Repr

/-- A schema table: id, declared identifier field-name list, ordered fields. -/
structure SchemaTable where
  id : String
  identifier : List String
  fields : List SchemaField
deriving DecidableEq, Repr

/-- A dataset schema: id, declared coordinate reference system, tables. -/
structure DatasetSchema where
  id : String
  crs : String
  tables : List SchemaTable
deriving DecidableEq, Repr

/-- Modelled from the spec: `DatasetSchema.get_table_by_id` resolves a table
id in the dataset's table list (missing table is a hard lookup error). -/
def get_table_by_id (ds : DatasetSchema) (table_id : String) : Option SchemaTable :=
  ds.tables.find? (fun t => t.id == table_id)

/-- The Python dict `{ds.id: ds for ds in datasets}` built by
`EventsProcessor.__init__` (later datasets overwrite earlier ones with the
same id). -/
def dict_of_datasets (datasets : List DatasetSchema) : AList DatasetSchema :=
  datasets.foldl (fun acc ds => aset acc ds.id ds) []

/-- Lookup `self.datasets[dataset_id]`. -/
def datasetsById (datasets : List DatasetSchema) (dataset_id : String) :
    Option DatasetSchema :=
  aget (dict_of_datasets datasets) dataset_id

/-! ## Event projection (`schematools/events/json.py` and `fetchers.py`) -/

/-- Errors raised by the Python code: failed dict lookups, failed list
indexing, failed assertions, failed schema lookups, unsupported shapes. -/
inductive PErr where
  | keyError (key : String)
  | indexError
  | typeError
  | assertionError (msg : String)
  | lookupError (what : String)
deriving DecidableEq, Repr

/-- `fetch_insert_data` (`fetchers.py`): keep every scalar entry of the
event's `entity` mapping, dropping `dict`-valued entries. -/
def fetch_insert_data (event_data : AList Value) : Except PErr (AList Value) :=
  match aget event_data "entity" with
  | none => .error (.keyError "entity")
  | some (.obj entity) =>
      .ok (entity.foldl (fun acc p => if p.2.isObject then acc else aset acc p.1 p.2) [])
  | some _ => .error .typeError

/-- One step of the `fetch_update_data` loop over the `modifications` list:
skip the hard-coded `geometrie` key, otherwise store `new_value` under
`key`. -/
def update_step (acc : AList Value) (modification : Value) : Except PErr (AList Value) :=
  match modification with
  | .obj m =>
      match aget m "key" with
      | none => .error (.keyError "key")
      | some (.str k) =>
          if k = "geometrie" then .ok acc
          else
            match aget m "new_value" with
            | none => .error (.keyError "new_value")
            | some nv => .ok (aset acc k nv)
      | some _ => .error .typeError
  | _ => .error .typeError

/-- The loop of `fetch_update_data` over the `modifications` list. -/
def update_fold (acc : AList Value) : List Value → Except PErr (AList Value)
  | [] => .ok acc
  | m :: rest =>
      match update_step acc m with
      | .error e => .error e
      | .ok acc2 => update_fold acc2 rest

/-- `fetch_update_data` (`fetchers.py`): fold the `modifications` list into a
single dict, skipping the `geometrie` key. -/
def fetch_update_data (event_data : AList Value) : Except PErr (AList Value) :=
  match aget event_data "modifications" with
  | none => .error (.keyError "modifications")
  | some (.arr mods) => update_fold [] mods
  | some _ => .error .typeError

/-- `EVENT_TYPE_MAPPING` (`json.py`): the dispatch dict from event type to
data fetcher; it has no entry for `DELETE`. -/
def EVENT_TYPE_MAPPING : AList (AList Value → Except PErr (AList Value)) :=
  [("ADD", fetch_insert_data), ("MODIFY", fetch_update_data)]

/-- `EMPTY_VALUES` (`json.py`). -/
def EMPTY_VALUES : AList Value :=
  [("string", .str ""), ("number", .null), ("integer", .null)]

/-- The state record produced by the projection (`Blob` in `json.py`). -/
structure Blob where
  key : Option String
  dataset_id : String
  table_id : String
  fields : AList Value

/-- One step of the field loop in `BlobMaker.fetch_empty_blob`: type-derived
empty default via `EMPTY_VALUES`, `null` for types containing `geojson`
(`except KeyError: if "geojson" in ds_field.type`), fields of any other type
skipped (`continue`). -/
def empty_blob_step (acc : AList Value) (f : SchemaField) : AList Value :=
  match aget EMPTY_VALUES f.type with
  | some v => aset acc f.name v
  | none =>
      if strContains f.type "geojson" then aset acc f.name .null else acc

/-- The per-field part of `BlobMaker.fetch_empty_blob`. -/
def fetch_empty_blob_fields (table : SchemaTable) : AList Value :=
  table.fields.foldl empty_blob_step []

/-- `BlobMaker.fetch_empty_blob` (`json.py`): empty state template for a
dataset/table, with key `None`. -/
def fetch_empty_blob (datasets : List DatasetSchema) (dataset_id table_id : String) :
    Except PErr Blob :=
  match datasetsById datasets dataset_id with
  | none => .error (.keyError dataset_id)
  | some ds =>
      match get_table_by_id ds table_id with
      | none => .error (.lookupError table_id)
      | some table =>
          .ok { key := none, dataset_id := dataset_id, table_id := table_id,
                fields := fetch_empty_blob_fields table }

/-- `BlobMaker.fetch_updated_blob` (`json.py`): immutable merge
`{**blob.fields, **field_updates}`. -/
def fetch_updated_blob (blob : Blob) (field_updates : AList Value) : Blob :=
  { key := blob.key, dataset_id := blob.dataset_id, table_id := blob.table_id,
    fields := amerge blob.fields field_updates }

/-- The geo-field registry computed by `EventsProcessor.__init__`.  The
source reassigns `self.geo_fields = defaultdict(...)` INSIDE the loop over
`self.datasets.items()`, so only the registry of the dataset iterated last
survives; lookups for any other dataset hit the `defaultdict` default `[]`. -/
def geo_fields (datasets : List DatasetSchema) (dataset_id table_id : String) :
    List String :=
  match (dict_of_datasets datasets).getLast? with
  | none => []
  | some (last_id, ds) =>
      if dataset_id = last_id then
        ds.tables.foldl (fun acc table =>
          if table.id = table_id then
            acc ++ (match get_table_by_id ds table.id with
                    | some t => (t.fields.filter (fun f => f.is_geo)).map (fun f => f.name)
                    | none => [])
          else acc) []
      else []

/-- The geo-decoration loop of `process_message`: for each registered geo
field name, a non-`None` value is replaced by `f"SRID={srid};{geo_value}"`,
where `srid = self.datasets[dataset_id]["crs"].split(":")[1]`. -/
def geo_rewrite_loop (datasets : List DatasetSchema) (dataset_id : String) :
    List String → AList Value → Except PErr (AList Value)
  | [], d => .ok d
  | field_name :: rest, d =>
      match aget d field_name with
      | none => geo_rewrite_loop datasets dataset_id rest d
      | some geo_value =>
          if geo_value.isNull then geo_rewrite_loop datasets dataset_id rest d
          else
            match datasetsById datasets dataset_id with
            | none => .error (.keyError dataset_id)
            | some ds =>
                match (pySplit ds.crs colonChar).get? 1 with
                | none => .error .indexError
                | some srid =>
                    geo_rewrite_loop datasets dataset_id rest
                      (aset d field_name (.str ("SRID=" ++ srid ++ ";" ++ pyStr geo_value)))

/-- Geo decoration of the extracted event data for one dataset/table, as
performed inline by `process_message`. -/
def apply_geo_rewrite (datasets : List DatasetSchema) (dataset_id table_id : String)
    (event_data : AList Value) : Except PErr (AList Value) :=
  geo_rewrite_loop datasets dataset_id (geo_fields datasets dataset_id table_id) event_data

/-- `".".join(str(event_data[fn]) for fn in identifier_fields)`. -/
def identifier_value (event_data : AList Value) (identifier : List String) :
    Except PErr String :=
  match identifier.mapM (fun fn =>
      match aget event_data fn with
      | some v => Except.ok (pyStr v)
      | none => Except.error (PErr.keyError fn)) with
  | .error e => .error e
  | .ok parts => .ok (String.intercalate "." parts)

/-- Event message headers (`event_type`, `catalog`, `collection`). -/
structure Headers where
  event_type : String
  catalog : String
  collection : String
deriving DecidableEq, Repr

/-- `EventsProcessor.fetch_unique_key` (`json.py`): resolves the fetcher,
extracts the event data, reads the table's identifier list and joins the
identifier values — and then falls off the end of the function (`pass`), so
it returns `None` on every successful run. -/
def fetch_unique_key (datasets : List DatasetSchema) (message_headers : Headers)
    (message_body : AList Value) : Except PErr (Option String) :=
  match aget EVENT_TYPE_MAPPING message_headers.event_type with
  | none => .error (.keyError message_headers.event_type)
  | some data_fetcher =>
      match data_fetcher message_body with
      | .error e => .error e
      | .ok event_data =>
          match datasetsById datasets message_headers.catalog with
          | none => .error (.keyError message_headers.catalog)
          | some ds =>
              match get_table_by_id ds message_headers.collection with
              | none => .error (.lookupError message_headers.collection)
              | some table =>
                  match identifier_value event_data table.identifier with
                  | .error e => .error e
                  | .ok _id_value => .ok none

/-- `EventsProcessor.process_message` (`json.py`). -/
def process_message (datasets : List DatasetSchema) (message_key : Option String)
    (message_headers : Headers) (message_body : AList Value)
    (current_blob_value : Option (AList Value) := none) : Except PErr Blob :=
  let event_type := message_headers.event_type
  let dataset_id := message_headers.catalog
  let table_id := message_headers.collection
  match aget EVENT_TYPE_MAPPING event_type with
  | none => .error (.keyError event_type)
  | some data_fetcher =>
    match data_fetcher message_body with
    | .error e => .error e
    | .ok event_data =>
      let blobE : Except PErr Blob :=
        if event_type = "ADD" then
          match fetch_empty_blob datasets dataset_id table_id with
          | .error e => .error e
          | .ok current_blob =>
              match datasetsById datasets dataset_id with
              | none => .error (.keyError dataset_id)
              | some ds =>
                  match get_table_by_id ds table_id with
                  | none => .error (.lookupError table_id)
                  | some table =>
                      match identifier_value event_data table.identifier with
                      | .error e => .error e
                      | .ok id_value =>
                          -- the computed key is never attached to the blob
                          let _key := dataset_id ++ "." ++ table_id ++ "." ++ id_value
                          .ok current_blob
        else
          match current_blob_value with
          | none => .error (.assertionError "For MODIFY events, we need a current_blob_value")
          | some prior =>
              .ok { key := message_key, dataset_id := dataset_id, table_id := table_id,
                    fields := prior }
      match blobE with
      | .error e => .error e
      | .ok current_blob =>
          match apply_geo_rewrite datasets dataset_id table_id event_data with
          | .error e => .error e
          | .ok event_data2 => .ok (fetch_updated_blob current_blob event_data2)

/-! ## Permission compiler (`schematools/permissions.py`)

Statements issued against the backend are modelled by `Stmt`; the session and
engine are modelled by an explicit `PermState` recording which statements were
echoed (`printed`, the `print(f"{status_msg} --> {stmt}")` calls and the
unconditional `print(grant_statement)` in `create_acl_from_profiles`) and
which were actually executed against the database (`executed`).  The
process-global `existing_roles` set is threaded through the state.  The
external helper `to_snake_case` (`schematools.utils`, not among the verified
sources) is kept abstract as a parameter `snake`. -/

/-- `auth` property of a dataset, table or field: absent, a single scope
string, or a list of scopes. -/
inductive Auth where
  | missing
  | one (scope : String)
  | many (scopes : List String)
deriving DecidableEq, Repr

/-- Python truthiness of the `auth` value (`None`, `""` and `[]` are falsy). -/
def Auth.truthy : Auth → Bool
  | .missing => false
  | .one s => !(s == "")
  | .many ss => !ss.isEmpty

/-- First-occurrence deduplication, modelling construction of a Python `set`
(set iteration order is arbitrary; insertion order is used here). -/
def dedupFirst (l : List String) : List String :=
  l.foldl (fun acc s => if s ∈ acc then acc else acc ++ [s]) []

/-- `{scope} if isinstance(scope, str) else set(scope)`. -/
def Auth.scopeSet : Auth → List String
  | .missing => []
  | .one s => [s]
  | .many ss => dedupFirst ss

/-- A field as seen by the permission compiler. -/
structure PermField where
  name : String
  auth : Auth
deriving DecidableEq, Repr

/-- A table as seen by the permission compiler. -/
structure PermTable where
  id : String
  auth : Auth
  fields : List PermField
deriving DecidableEq, Repr

/-- A dataset schema as seen by the permission compiler.  Modelled from the
spec: `get_tables(include_nested=True, include_through=True)` yields the
dataset's tables (including generated junction tables), each carrying its
parent dataset id. -/
structure PermDataset where
  id : String
  auth : Auth
  tables : List PermTable
deriving DecidableEq, Repr

/-- A profile document: declared scopes and the dataset ids of its
`schema_data.datasets` mapping. -/
structure PermProfile where
  scopes : List String
  datasets : List String
deriving DecidableEq, Repr

/-- A statement sent to (or echoed for) the database backend. -/
inductive Stmt where
  | grantStmt (privileges : List String) (table : String) (grantee : String) (schema : String)
  | revokeAllStmt (rolename : String)
  | createRoleStmt (rolename : String)
  | queryScopeRoles
deriving DecidableEq, Repr

/-- The observable state threaded through the permission functions. -/
structure PermState where
  existingRoles : List String := []
  printed : List Stmt := []
  executed : List Stmt := []
deriving DecidableEq, Repr

/-- `PUBLIC_SCOPE` (`permissions.py`). -/
def PUBLIC_SCOPE : String := "OPENBAAR"

/-- `scope_to_role` (`permissions.py`). -/
def scope_to_role (scope : String) : String :=
  "scope_" ++ ((scope.toLower).replace "/" "_")

/-- The grantee-resolution pattern repeated throughout
`create_acl_from_schema`: all roles derived from the scope set under
`role == "AUTO"`, else `[role]` exactly when the requested scope is in the
scope set. -/
def resolve_grantees (role scope : String) (scope_set : List String) : List String :=
  if role = "AUTO" then scope_set.map scope_to_role
  else if scope ∈ scope_set then [role] else []

/-- `_execute_grant` (`permissions.py`): always echo the statement; execute
it (wrapped in the benign-error `DO` block) only when not in dry-run mode. -/
def _execute_grant (st : PermState) (grant_statement : Stmt) (dry_run : Bool) : PermState :=
  let st1 := { st with printed := st.printed ++ [grant_statement] }
  if dry_run then st1 else { st1 with executed := st1.executed ++ [grant_statement] }

/-- `_create_role_if_not_exists` (`permissions.py`): skip entirely when the
role is memoised; otherwise echo, execute unless in dry-run mode, and add the
role to the process-global memo in either case. -/
def _create_role_if_not_exists (st : PermState) (role : String) (dry_run : Bool) : PermState :=
  if role ∈ st.existingRoles then st
  else
    let st1 := { st with printed := st.printed ++ [Stmt.createRoleStmt role] }
    let st2 := if dry_run then st1
               else { st1 with executed := st1.executed ++ [Stmt.createRoleStmt role] }
    { st2 with existingRoles := st2.existingRoles ++ [role] }

/-- `_revoke_all_priviliges_from_scope_roles` (`permissions.py`): the
`pg_roles` catalog query is executed unconditionally; each revoke is echoed
and executed only when not in dry-run mode.  `pg_scope_roles` is the catalog
query's result (role names matching `scope\_%`). -/
def _revoke_all_priviliges_from_scope_roles (st : PermState) (pg_scope_roles : List String)
    (dry_run : Bool) : PermState :=
  let st1 := { st with executed := st.executed ++ [Stmt.queryScopeRoles] }
  pg_scope_roles.foldl (fun acc r =>
    let acc1 := { acc with printed := acc.printed ++ [Stmt.revokeAllStmt r] }
    if dry_run then acc1 else { acc1 with executed := acc1.executed ++ [Stmt.revokeAllStmt r] }) st1

/-- `create_acl_from_schema` (`permissions.py`). -/
def create_acl_from_schema (snake : String → String) (st : PermState)
    (ams_schema : PermDataset) (role scope : String) (dry_run create_roles : Bool) :
    PermState :=
  -- grantee = role if role != "AUTO" else None; if create_roles and grantee:
  -- (note: this call site does not forward dry_run, so it defaults to False)
  let st := if create_roles && !(role == "AUTO") && !(role == "") then
              _create_role_if_not_exists st role false
            else st
  let dataset_scope_set :=
    if ams_schema.auth.truthy then ams_schema.auth.scopeSet else [PUBLIC_SCOPE]
  ams_schema.tables.foldl (fun st table =>
    let table_name := ams_schema.id ++ "_" ++ snake table.id
    let table_scope_set :=
      if table.auth.truthy then table.auth.scopeSet else dataset_scope_set
    let fields := table.fields.filter (fun f => f.name ≠ "schema")
    let contains_field_grants := fields.any (fun f => f.auth.truthy)
    -- per-field grants for fields carrying their own auth scope set
    let st := fields.foldl (fun st field =>
      if field.auth.truthy then
        let grantees := resolve_grantees role scope field.auth.scopeSet
        grantees.foldl (fun st grantee =>
          let st := if create_roles then _create_role_if_not_exists st grantee dry_run else st
          _execute_grant st
            (Stmt.grantStmt ["SELECT (" ++ snake field.name ++ ")"] table_name grantee "public")
            dry_run) st
      else st) st
    if contains_field_grants then
      -- one single-column grant per remaining field without its own scope
      let grantees := resolve_grantees role scope table_scope_set
      grantees.foldl (fun st grantee =>
        let st := if create_roles then _create_role_if_not_exists st grantee dry_run else st
        fields.foldl (fun st field =>
          if field.auth.truthy then st
          else
            _execute_grant st
              (Stmt.grantStmt ["SELECT (" ++ snake field.name ++ ")"] table_name grantee "public")
              dry_run) st) st
    else
      -- the whole table in a single table-level SELECT grant
      let grantees := resolve_grantees role scope table_scope_set
      grantees.foldl (fun st grantee =>
        let st := if create_roles then _create_role_if_not_exists st grantee dry_run else st
        _execute_grant st (Stmt.grantStmt ["SELECT"] table_name grantee "public") dry_run) st) st

/-- `create_acl_from_schemas` (`permissions.py`): blanket revoke from all
`scope_*` roles, then per-dataset grant compilation. -/
def create_acl_from_schemas (snake : String → String) (st : PermState)
    (pg_scope_roles : List String) (schemas : List PermDataset) (role scope : String)
    (dry_run create_roles : Bool) : PermState :=
  let st := _revoke_all_priviliges_from_scope_roles st pg_scope_roles dry_run
  schemas.foldl (fun st s => create_acl_from_schema snake st s role scope dry_run create_roles) st

/-- `create_acl_from_profiles` (`permissions.py`): for each profile whose
scopes contain the requested scope, grant SELECT on every ACL table whose
name starts with `{dataset}_` — printing AND executing unconditionally (the
function has no dry-run parameter).  `acl_tables` is the result of
`query.get_all_table_acls`. -/
def create_acl_from_profiles (st : PermState) (acl_tables : List String)
    (profile_list : List PermProfile) (role scope : String) : PermState :=
  profile_list.foldl (fun st profile =>
    if scope ∈ profile.scopes then
      profile.datasets.foldl (fun st dataset =>
        acl_tables.foldl (fun st item =>
          if pyStartswith item (dataset ++ "_") then
            let g := Stmt.grantStmt ["SELECT"] item role "public"
            { st with printed := st.printed ++ [g], executed := st.executed ++ [g] }
          else st) st) st
    else st) st

/-- `apply_schema_and_profile_permissions` (`permissions.py`): schema grants
(with dry-run honoured) followed by profile grants (called WITHOUT the
dry-run flag). -/
def apply_schema_and_profile_permissions (snake : String → String) (st : PermState)
    (pg_scope_roles acl_tables : List String) (ams_schema : List PermDataset)
    (profiles : List PermProfile) (role scope : String) (dry_run create_roles : Bool) :
    PermState :=
  let st := if ams_schema.isEmpty then st
            else create_acl_from_schemas snake st pg_scope_roles ams_schema role scope
                   dry_run create_roles
  if profiles.isEmpty then st
  else create_acl_from_profiles st acl_tables profiles role scope

/-! ## Dictionary lemmas -/

section AListLemmas

variable {α : Type}

theorem aget_cons (k2 : String) (v2 : α) (t : AList α) (k : String) :
    aget ((k2, v2) :: t) k = if k2 = k then some v2 else aget t k := rfl

theorem akeys_cons (p : String × α) (t : AList α) :
    akeys (p :: t) = p.1 :: akeys t := rfl

theorem aget_eq_none_of_not_mem {d : AList α} {k : String} (h : k ∉ akeys d) :
    aget d k = none := by
  induction d with
  | nil => rfl
  | cons p rest ih =>
      rw [akeys_cons, List.mem_cons, not_or] at h
      obtain ⟨pk, pv⟩ := p
      rw [aget_cons, if_neg (fun hh : pk = k => h.1 hh.symm)]
      exact ih h.2

theorem aget_isSome_of_mem {d : AList α} {k : String} (h : k ∈ akeys d) :
    (aget d k).isSome := by
  induction d with
  | nil => simp [akeys] at h
  | cons p rest ih =>
      rw [akeys_cons, List.mem_cons] at h
      obtain ⟨pk, pv⟩ := p
      by_cases hk : pk = k
      · rw [aget_cons, if_pos hk]; rfl
      · rw [aget_cons, if_neg hk]
        rcases h with h | h
        · exact absurd h.symm hk
        · exact ih h

theorem aget_map_replace (d : AList α) (k k2 : String) (v : α) :
    aget (d.map (fun p => if p.1 = k then (k, v) else p)) k2 =
      if k2 = k then (aget d k).map (fun _ => v) else aget d k2 := by
  induction d with
  | nil => by_cases h : k2 = k <;> simp [aget, h]
  | cons p rest ih =>
      obtain ⟨pk, pv⟩ := p
      rw [List.map_cons]
      dsimp only
      by_cases hp : pk = k
      · rw [if_pos hp]
        by_cases h2 : k2 = k
        · subst h2
          rw [if_pos rfl, aget_cons, if_pos rfl, aget_cons, if_pos hp]
          rfl
        · rw [if_neg h2, aget_cons, if_neg (fun hh : k = k2 => h2 hh.symm), ih, if_neg h2,
              aget_cons, if_neg (fun hh : pk = k2 => h2 (hp ▸ hh : k = k2).symm)]
      · rw [if_neg hp]
        by_cases h2 : k2 = k
        · subst h2
          rw [if_pos rfl, aget_cons, if_neg (fun hh : pk = k2 => hp hh), ih, if_pos rfl,
              aget_cons, if_neg hp]
        · rw [if_neg h2, aget_cons, aget_cons, ih, if_neg h2]

theorem aget_append (a b : AList α) (k : String) :
    aget (a ++ b) k = (aget a k).or (aget b k) := by
  induction a with
  | nil => simp [aget, Option.or]
  | cons p rest ih =>
      by_cases h : p.1 = k
      · simp [aget, h, Option.or]
      · simp [aget, h, ih]

theorem aget_aset_self (d : AList α) (k : String) (v : α) :
    aget (aset d k v) k = some v := by
  unfold aset
  by_cases h : k ∈ akeys d
  · rw [if_pos h, aget_map_replace, if_pos rfl]
    rcases Option.isSome_iff_exists.mp (aget_isSome_of_mem h) with ⟨w, hw⟩
    simp [hw]
  · rw [if_neg h, aget_append, aget_eq_none_of_not_mem h]
    simp [aget, Option.or]

theorem aget_aset_ne (d : AList α) (k k2 : String) (v : α) (h : k2 ≠ k) :
    aget (aset d k v) k2 = aget d k2 := by
  unfold aset
  by_cases hm : k ∈ akeys d
  · rw [if_pos hm, aget_map_replace, if_neg h]
  · rw [if_neg hm, aget_append]
    simp [aget, if_neg (fun hh : k = k2 => h hh.symm), Option.or]
    cases aget d k2 <;> simp [Option.or]

theorem agetLast_cons (p : String × α) (t : AList α) (k : String) :
    agetLast (p :: t) k = (agetLast t k).or (if p.1 = k then some p.2 else none) := by
  unfold agetLast
  rw [List.reverse_cons, aget_append]
  rfl

theorem option_or_assoc (a b c : Option α) : (a.or b).or c = a.or (b.or c) := by
  cases a <;> simp [Option.or]

theorem aget_amerge (a b : AList α) (k : String) :
    aget (amerge a b) k = (agetLast b k).or (aget a k) := by
  induction b generalizing a with
  | nil => simp [amerge, agetLast, aget, Option.or]
  | cons p t ih =>
      have hstep : amerge a (p :: t) = amerge (aset a p.1 p.2) t := rfl
      rw [hstep, ih, agetLast_cons, option_or_assoc]
      by_cases h : p.1 = k
      · subst h
        rw [aget_aset_self]
        simp [Option.or]
      · rw [aget_aset_ne _ _ _ _ (fun hh => h hh.symm)]
        simp [Option.or, if_neg h]

theorem akeys_aset_of_mem {d : AList α} {k : String} (v : α) (h : k ∈ akeys d) :
    akeys (aset d k v) = akeys d := by
  unfold aset
  rw [if_pos h]
  unfold akeys
  rw [List.map_map]
  apply List.map_congr_left
  intro p _
  by_cases hp : p.1 = k <;> simp [hp]

theorem akeys_aset_of_not_mem {d : AList α} {k : String} (v : α) (h : k ∉ akeys d) :
    akeys (aset d k v) = akeys d ++ [k] := by
  unfold aset
  rw [if_neg h]
  simp [akeys]

theorem keysNodup_aset {d : AList α} {k : String} (v : α) (h : KeysNodup d) :
    KeysNodup (aset d k v) := by
  unfold KeysNodup
  by_cases hm : k ∈ akeys d
  · rw [akeys_aset_of_mem v hm]; exact h
  · rw [akeys_aset_of_not_mem v hm]
    simpa [List.nodup_append] using ⟨h, hm⟩

theorem agetLast_eq_aget {d : AList α} (h : KeysNodup d) (k : String) :
    agetLast d k = aget d k := by
  induction d with
  | nil => rfl
  | cons p t ih =>
      have hnd : KeysNodup t := by
        unfold KeysNodup at h ⊢
        exact (List.nodup_cons.mp h).2
      have hni : p.1 ∉ akeys t := by
        unfold KeysNodup at h
        exact (List.nodup_cons.mp h).1
      rw [agetLast_cons, ih hnd]
      by_cases hk : p.1 = k
      · subst hk
        rw [aget_eq_none_of_not_mem hni]
        simp [aget, Option.or]
      · simp [aget, if_neg hk]

end AListLemmas

/-! ## Unfolding lemmas for `process_message` -/

theorem process_message_add_eq (datasets : List DatasetSchema) (mkey : Option String)
    (body : AList Value) (prior : Option (AList Value)) (cat coll : String) :
    process_message datasets mkey { event_type := "ADD", catalog := cat, collection := coll }
        body prior =
      match fetch_insert_data body with
      | .error e => .error e
      | .ok event_data =>
        match fetch_empty_blob datasets cat coll with
        | .error e => .error e
        | .ok current_blob =>
          match datasetsById datasets cat with
          | none => .error (.keyError cat)
          | some ds =>
            match get_table_by_id ds coll with
            | none => .error (.lookupError coll)
            | some table =>
              match identifier_value event_data table.identifier with
              | .error e => .error e
              | .ok _ =>
                match apply_geo_rewrite datasets cat coll event_data with
                | .error e => .error e
                | .ok ed2 => .ok (fetch_updated_blob current_blob ed2) := by
  unfold process_message
  dsimp only
  rw [show aget EVENT_TYPE_MAPPING "ADD" = some fetch_insert_data from rfl]
  dsimp only
  cases hfi : fetch_insert_data body with
  | error e => rfl
  | ok event_data =>
      dsimp only
      rw [if_pos rfl]
      cases hfe : fetch_empty_blob datasets cat coll with
      | error e => rfl
      | ok current_blob =>
          dsimp only
          cases hds : datasetsById datasets cat with
          | none => rfl
          | some ds =>
              dsimp only
              cases hgt : get_table_by_id ds coll with
              | none => rfl
              | some table =>
                  dsimp only
                  cases hiv : identifier_value event_data table.identifier with
                  | error e => rfl
                  | ok id_value => rfl

theorem process_message_modify_eq (datasets : List DatasetSchema) (mkey : Option String)
    (body : AList Value) (prior : Option (AList Value)) (cat coll : String) :
    process_message datasets mkey { event_type := "MODIFY", catalog := cat, collection := coll }
        body prior =
      match fetch_update_data body with
      | .error e => .error e
      | .ok event_data =>
        match prior with
        | none => .error (.assertionError "For MODIFY events, we need a current_blob_value")
        | some p =>
          match apply_geo_rewrite datasets cat coll event_data with
          | .error e => .error e
          | .ok ed2 =>
              .ok (fetch_updated_blob
                    { key := mkey, dataset_id := cat, table_id := coll, fields := p } ed2) := by
  unfold process_message
  dsimp only
  rw [show aget EVENT_TYPE_MAPPING "MODIFY" = some fetch_update_data from rfl]
  dsimp only
  cases hfu : fetch_update_data body with
  | error e => rfl
  | ok event_data =>
      dsimp only
      rw [if_neg (by decide : ¬ ("MODIFY" = "ADD"))]
      cases prior with
      | none => rfl
      | some p => rfl

theorem process_message_no_fetcher (datasets : List DatasetSchema) (mkey : Option String)
    (body : AList Value) (prior : Option (AList Value)) (hdrs : Headers)
    (h : aget EVENT_TYPE_MAPPING hdrs.event_type = none) :
    process_message datasets mkey hdrs body prior = .error (.keyError hdrs.event_type) := by
  unfold process_message
  dsimp only
  rw [h]

/-! ## Key-uniqueness of the extraction and decoration outputs -/

theorem keysNodup_insert_fold (entity : List (String × Value)) (acc : AList Value)
    (h : KeysNodup acc) :
    KeysNodup (entity.foldl
      (fun acc p => if p.2.isObject then acc else aset acc p.1 p.2) acc) := by
  induction entity generalizing acc with
  | nil => exact h
  | cons p rest ih =>
      rw [List.foldl_cons]
      cases hobj : p.2.isObject with
      | true => simpa [hobj] using ih acc h
      | false => simpa [hobj] using ih _ (keysNodup_aset p.2 h)

theorem fetch_insert_data_nodup (body : AList Value) (d : AList Value)
    (h : fetch_insert_data body = .ok d) : KeysNodup d := by
  unfold fetch_insert_data at h
  cases hb : aget body "entity" with
  | none => rw [hb] at h; exact absurd h (by simp)
  | some v =>
      rw [hb] at h
      cases v with
      | obj entity =>
          dsimp only at h
          injection h with h
          rw [← h]
          exact keysNodup_insert_fold entity [] (by simp [KeysNodup, akeys])
      | str s => exact absurd h (by simp)
      | int n => exact absurd h (by simp)
      | null => exact absurd h (by simp)
      | bool b => exact absurd h (by simp)
      | arr l => exact absurd h (by simp)

theorem update_step_shape (acc : AList Value) (m : Value) (acc2 : AList Value)
    (h : update_step acc m = .ok acc2) :
    acc2 = acc ∨ ∃ k nv, k ≠ "geometrie" ∧ acc2 = aset acc k nv := by
  unfold update_step at h
  cases m with
  | obj mm =>
      dsimp only at h
      cases hk : aget mm "key" with
      | none => rw [hk] at h; exact absurd h (by simp)
      | some kv =>
          rw [hk] at h
          cases kv with
          | str k =>
              dsimp only at h
              by_cases hg : k = "geometrie"
              · rw [if_pos hg] at h
                injection h with h
                exact Or.inl h.symm
              · rw [if_neg hg] at h
                cases hnv : aget mm "new_value" with
                | none => rw [hnv] at h; exact absurd h (by simp)
                | some nv =>
                    rw [hnv] at h
                    injection h with h
                    exact Or.inr ⟨k, nv, hg, h.symm⟩
          | int n => exact absurd h (by simp)
          | null => exact absurd h (by simp)
          | bool b => exact absurd h (by simp)
          | arr l => exact absurd h (by simp)
          | obj l => exact absurd h (by simp)
  | str s => exact absurd h (by simp)
  | int n => exact absurd h (by simp)
  | null => exact absurd h (by simp)
  | bool b => exact absurd h (by simp)
  | arr l => exact absurd h (by simp)

theorem update_fold_nodup (mods : List Value) :
    ∀ acc d : AList Value, KeysNodup acc → update_fold acc mods = .ok d → KeysNodup d := by
  induction mods with
  | nil =>
      intro acc d hacc h
      unfold update_fold at h
      injection h with h
      rw [← h]; exact hacc
  | cons m rest ih =>
      intro acc d hacc h
      unfold update_fold at h
      cases hstep : update_step acc m with
      | error e => rw [hstep] at h; exact absurd h (by simp)
      | ok acc2 =>
          rw [hstep] at h
          rcases update_step_shape acc m acc2 hstep with h2 | ⟨k, nv, _, h2⟩
          · exact ih acc2 d (h2 ▸ hacc) h
          · exact ih acc2 d (h2 ▸ keysNodup_aset nv hacc) h

theorem fetch_update_data_nodup (body : AList Value) (d : AList Value)
    (h : fetch_update_data body = .ok d) : KeysNodup d := by
  unfold fetch_update_data at h
  cases hb : aget body "modifications" with
  | none => rw [hb] at h; exact absurd h (by simp)
  | some v =>
      rw [hb] at h
      cases v with
      | arr mods =>
          dsimp only at h
          exact update_fold_nodup mods [] d (by simp [KeysNodup, akeys]) h
      | str s => exact absurd h (by simp)
      | int n => exact absurd h (by simp)
      | null => exact absurd h (by simp)
      | bool b => exact absurd h (by simp)
      | obj l => exact absurd h (by simp)

theorem geo_loop_nodup (datasets : List DatasetSchema) (dataset_id : String)
    (l : List String) :
    ∀ d d2 : AList Value, geo_rewrite_loop datasets dataset_id l d = .ok d2 →
      KeysNodup d → KeysNodup d2 := by
  induction l with
  | nil =>
      intro d d2 h hd
      unfold geo_rewrite_loop at h
      injection h with h
      rw [← h]; exact hd
  | cons f rest ih =>
      intro d d2 h hd
      unfold geo_rewrite_loop at h
      split at h
      · exact ih d d2 h hd
      · split at h
        · exact ih d d2 h hd
        · split at h
          · exact absurd h (by simp)
          · split at h
            · exact absurd h (by simp)
            · exact ih _ d2 h (keysNodup_aset _ hd)

theorem geo_loop_not_mem (datasets : List DatasetSchema) (dataset_id : String)
    (l : List String) (f : String) :
    ∀ d d2 : AList Value, f ∉ l → geo_rewrite_loop datasets dataset_id l d = .ok d2 →
      aget d2 f = aget d f := by
  induction l with
  | nil =>
      intro d d2 _ h
      unfold geo_rewrite_loop at h
      injection h with h
      rw [← h]
  | cons g rest ih =>
      intro d d2 hf h
      rw [List.mem_cons, not_or] at hf
      unfold geo_rewrite_loop at h
      split at h
      · exact ih d d2 hf.2 h
      · split at h
        · exact ih d d2 hf.2 h
        · split at h
          · exact absurd h (by simp)
          · split at h
            · exact absurd h (by simp)
            · rw [ih _ d2 hf.2 h, aget_aset_ne _ _ _ _ hf.1]

theorem geo_loop_mem (datasets : List DatasetSchema) (dataset_id : String)
    (l : List String) (f : String) (v : Value) :
    ∀ d d2 : AList Value, l.Nodup → f ∈ l → aget d f = some v → v.isNull = false →
    geo_rewrite_loop datasets dataset_id l d = .ok d2 →
    ∃ ds srid, datasetsById datasets dataset_id = some ds ∧
      (pySplit ds.crs colonChar).get? 1 = some srid ∧
      aget d2 f = some (.str ("SRID=" ++ srid ++ ";" ++ pyStr v)) := by
  induction l with
  | nil => intro d d2 _ hf; simp at hf
  | cons g rest ih =>
      intro d d2 hnd hf hv hnn h
      have hndr : rest.Nodup := (List.nodup_cons.mp hnd).2
      have hgr : g ∉ rest := (List.nodup_cons.mp hnd).1
      unfold geo_rewrite_loop at h
      rcases List.mem_cons.mp hf with hfg | hfr
      · subst hfg
        rw [hv] at h
        dsimp only at h
        rw [hnn] at h
        simp only [Bool.false_eq_true, if_false] at h
        cases hds : datasetsById datasets dataset_id with
        | none => rw [hds] at h; exact absurd h (by simp)
        | some ds =>
            rw [hds] at h
            dsimp only at h
            cases hsr : (pySplit ds.crs colonChar).get? 1 with
            | none => rw [hsr] at h; exact absurd h (by simp)
            | some srid =>
                rw [hsr] at h
                dsimp only at h
                refine ⟨ds, srid, rfl, hsr, ?_⟩
                rw [geo_loop_not_mem datasets dataset_id rest f _ d2 hgr h,
                    aget_aset_self]
      · have hfg : f ≠ g := fun hh => hgr (hh ▸ hfr)
        split at h
        · exact ih d d2 hndr hfr hv hnn h
        · split at h
          · exact ih d d2 hndr hfr hv hnn h
          · split at h
            · exact absurd h (by simp)
            · split at h
              · exact absurd h (by simp)
              · exact ih _ d2 hndr hfr
                  (by rw [aget_aset_ne _ _ _ _ hfg]; exact hv) hnn h

/-! ## Characterization of the empty-blob template -/

theorem aget_empty_blob_step_self (acc : AList Value) (f : SchemaField) :
    aget (empty_blob_step acc f) f.name =
      match aget EMPTY_VALUES f.type with
      | some v => some v
      | none =>
          if strContains f.type "geojson" then some Value.null else aget acc f.name := by
  unfold empty_blob_step
  cases aget EMPTY_VALUES f.type with
  | some v => exact aget_aset_self acc f.name v
  | none =>
      dsimp only
      by_cases hg : strContains f.type "geojson"
      · rw [if_pos hg, if_pos hg, aget_aset_self]
      · rw [if_neg hg, if_neg hg]

theorem aget_empty_blob_step_ne (acc : AList Value) (f : SchemaField) (n : String)
    (h : f.name ≠ n) : aget (empty_blob_step acc f) n = aget acc n := by
  unfold empty_blob_step
  cases aget EMPTY_VALUES f.type with
  | some v => exact aget_aset_ne acc f.name n v (fun hh => h hh.symm)
  | none =>
      dsimp only
      by_cases hg : strContains f.type "geojson"
      · rw [if_pos hg, aget_aset_ne acc f.name n _ (fun hh => h hh.symm)]
      · rw [if_neg hg]

theorem template_fold_not_mem (fs : List SchemaField) (n : String) :
    ∀ acc : AList Value, (∀ f ∈ fs, f.name ≠ n) →
      aget (fs.foldl empty_blob_step acc) n = aget acc n := by
  induction fs with
  | nil => intro acc _; rfl
  | cons f rest ih =>
      intro acc h
      rw [List.foldl_cons, ih _ (fun g hg => h g (List.mem_cons_of_mem f hg)),
          aget_empty_blob_step_ne acc f n (h f (List.mem_cons_self f rest))]

theorem template_fold_mem (fs : List SchemaField) (f : SchemaField) :
    ∀ acc : AList Value, (fs.map SchemaField.name).Nodup → f ∈ fs →
      aget (fs.foldl empty_blob_step acc) f.name =
        match aget EMPTY_VALUES f.type with
        | some v => some v
        | none =>
            if strContains f.type "geojson" then some Value.null else aget acc f.name := by
  induction fs with
  | nil => intro acc _ hf; simp at hf
  | cons g rest ih =>
      intro acc hnd hf
      have hgn : g.name ∉ rest.map SchemaField.name := (List.nodup_cons.mp (by simpa using hnd)).1
      have hndr : (rest.map SchemaField.name).Nodup := (List.nodup_cons.mp (by simpa using hnd)).2
      rw [List.foldl_cons]
      rcases List.mem_cons.mp hf with hfg | hfr
      · subst hfg
        rw [template_fold_not_mem rest f.name _
              (fun g2 hg2 hh => hgn (hh ▸ List.mem_map_of_mem SchemaField.name hg2)),
            aget_empty_blob_step_self]
      · have hfg : f.name ≠ g.name :=
          fun hh => hgn (hh ▸ List.mem_map_of_mem SchemaField.name hfr)
        rw [ih _ hndr hfr, aget_empty_blob_step_ne acc g f.name (fun hh => hfg hh.symm)]

/-! ## Concrete demonstration data (used by witnesses and counterexamples) -/

/-- The demonstration table, mirroring the `bouwblokken` fixture of the test
suite: compound identifier, scalar fields, and a geo field. -/
def bouwblokkenTable : SchemaTable :=
  { id := "bouwblokken",
    identifier := ["identificatie", "volgnummer"],
    fields := [{ name := "identificatie", type := "string", is_geo := false },
               { name := "volgnummer", type := "integer", is_geo := false },
               { name := "code", type := "string", is_geo := false },
               { name := "geometrie", type := "https://geojson.org/schema/Polygon.json",
                 is_geo := true }] }

/-- The demonstration field of `bouwblokkenTable` used in the C2 witness. -/
def volgnummerField : SchemaField :=
  { name := "volgnummer", type := "integer", is_geo := false }

/-- A demonstration dataset mirroring the `gebieden` fixtures of the test
suite. -/
def gebieden : DatasetSchema :=
  { id := "gebieden", crs := "EPSG:28992", tables := [bouwblokkenTable] }

/-- Headers of a demonstration ADD event. -/
def demoAddHeaders : Headers :=
  { event_type := "ADD", catalog := "gebieden", collection := "bouwblokken" }

/-- Body of a demonstration ADD event. -/
def demoAddBody : AList Value :=
  [("entity", .obj [("identificatie", .str "03630012096976"), ("volgnummer", .int 1),
                    ("code", .str "AA01"), ("geometrie", .str "POLYGON((1 1))"),
                    ("ligtInBuurt", .obj [("identificatie", .str "x")])])]

/-- Headers of a demonstration MODIFY event. -/
def demoModifyHeaders : Headers :=
  { event_type := "MODIFY", catalog := "gebieden", collection := "bouwblokken" }

/-- Body of a demonstration MODIFY event (including a skipped `geometrie`
modification). -/
def demoModifyBody : AList Value :=
  [("modifications",
    .arr [.obj [("key", .str "code"), ("new_value", .str "AA02"), ("old_value", .str "AA01")],
          .obj [("key", .str "geometrie"), ("new_value", .str "POLYGON((2 2))")]])]

/-- Prior field state supplied with the demonstration MODIFY event. -/
def demoPriorFields : AList Value :=
  [("identificatie", .str "03630012096976"), ("volgnummer", .int 1),
   ("code", .str "AA01"), ("geometrie", .str "SRID=28992;POLYGON((1 1))")]

/-- Extraction result of the demonstration ADD body. -/
def demoAddEntity : AList Value := (fetch_insert_data demoAddBody).toOption.getD []

/-- Template fields for the demonstration ADD event. -/
def demoAddTemplate : AList Value :=
  ((fetch_empty_blob [gebieden] "gebieden" "bouwblokken").map Blob.fields).toOption.getD []

/-- Geo-decorated extraction of the demonstration ADD body. -/
def demoAddDec : AList Value :=
  (apply_geo_rewrite [gebieden] "gebieden" "bouwblokken" demoAddEntity).toOption.getD []

/-- Result blob of the demonstration ADD event. -/
def demoAddBlob : Blob :=
  (process_message [gebieden] (some "mk") demoAddHeaders demoAddBody none).toOption.getD
    { key := none, dataset_id := "", table_id := "", fields := [] }

/-- Extraction result of the demonstration MODIFY body. -/
def demoModifyDec0 : AList Value := (fetch_update_data demoModifyBody).toOption.getD []

/-- Geo-decorated extraction of the demonstration MODIFY body. -/
def demoModifyDec : AList Value :=
  (apply_geo_rewrite [gebieden] "gebieden" "bouwblokken" demoModifyDec0).toOption.getD []

/-- Result blob of the demonstration MODIFY event. -/
def demoModifyBlob : Blob :=
  (process_message [gebieden] (some "mk") demoModifyHeaders demoModifyBody
      (some demoPriorFields)).toOption.getD
    { key := none, dataset_id := "", table_id := "", fields := [] }

/-! ## Claims -/

/-- Claim C1: the claim says a DELETE event yields a tombstone state record
(`fields = null`, event kind DELETE) regardless of prior state.  The code has
no `DELETE` entry in `EVENT_TYPE_MAPPING`, so `process_message` fails with
`KeyError: 'DELETE'` and returns no state record at all — with or without
prior state.  (The repository's own test
`test_message_process_delete` asserts the tombstone behaviour, so this is a
gap in the code, not in the claim.) -/
theorem C1_delete_event_unhandled :
    process_message [gebieden] (some "mk")
        { event_type := "DELETE", catalog := "gebieden", collection := "bouwblokken" }
        demoAddBody (some demoPriorFields) = .error (.keyError "DELETE")
    ∧ process_message [gebieden] (some "mk")
        { event_type := "DELETE", catalog := "gebieden", collection := "bouwblokken" }
        demoAddBody none = .error (.keyError "DELETE") :=
  ⟨rfl, rfl⟩

/-- Claim C9: a MODIFY event with absent (`None`) prior field state fails the
`assert current_blob_value is not None` precondition: the error propagates
(the result is an error, never a state record), for every message body whose
extraction succeeds. -/
theorem C9_modify_without_prior_fails (datasets : List DatasetSchema)
    (mkey : Option String) (hdrs : Headers) (body : AList Value) (dec : AList Value)
    (het : hdrs.event_type = "MODIFY") (hfu : fetch_update_data body = .ok dec) :
    process_message datasets mkey hdrs body none =
      .error (.assertionError "For MODIFY events, we need a current_blob_value") := by
  obtain ⟨et, cat, coll⟩ := hdrs
  have het2 : et = "MODIFY" := het
  subst het2
  rw [process_message_modify_eq, hfu]

/-- Witness for C9 at the demonstration MODIFY event. -/
theorem C9_modify_without_prior_fails_witness :
    process_message [gebieden] (some "mk") demoModifyHeaders demoModifyBody none =
      .error (.assertionError "For MODIFY events, we need a current_blob_value") :=
  C9_modify_without_prior_fails [gebieden] (some "mk") demoModifyHeaders demoModifyBody
    demoModifyDec0 rfl rfl

/-- Claim C10: the role-creation memo (`existing_roles`, a process-global
set) is updated even in dry-run mode: after any call for role `r` — in
particular a dry run, which executes nothing — `r` is memoised, and every
subsequent call for `r` is a complete no-op (no CREATE ROLE echoed or
executed, no state change), so a dry run suppresses role creation in a later
non-dry run of the same process. -/
theorem C10_role_memo_global (st : PermState) (r : String) (dry1 dry2 : Bool) :
    r ∈ (_create_role_if_not_exists st r dry1).existingRoles
    ∧ (_create_role_if_not_exists st r true).executed = st.executed
    ∧ _create_role_if_not_exists (_create_role_if_not_exists st r dry1) r dry2
        = _create_role_if_not_exists st r dry1 := by
  unfold _create_role_if_not_exists
  by_cases h : r ∈ st.existingRoles
  · simp [h]
  · cases dry1 <;> simp [h]

/-- Claim C6: key resolution.  The identifier-joining rule of the claim is
indeed what the code computes (`"03630012096976.1"` for identifier list
`["identificatie", "volgnummer"]`), but `fetch_unique_key` ends in `pass` and
returns `None` instead of the key, and `process_message` computes
`f"{dataset_id}.{table_id}.{id_value}"` and then discards it: the blob
returned for an ADD event carries key `None` (an empty blob's key), not the
resolved key. -/
theorem C6_resolved_key_discarded :
    ((fetch_insert_data demoAddBody).bind
        (fun d => identifier_value d ["identificatie", "volgnummer"])) =
      .ok "03630012096976.1"
    ∧ fetch_unique_key [gebieden] demoAddHeaders demoAddBody = .ok none
    ∧ (process_message [gebieden] (some "mk") demoAddHeaders demoAddBody none).map
        (fun b => b.key) = .ok none :=
  ⟨rfl, rfl, rfl⟩

/-- ADD body containing an array-valued entry and an object-valued entry. -/
def c7Body : AList Value :=
  [("entity", .obj [("a", .int 1), ("b", .arr [.int 1, .int 2]),
                    ("c", .obj [("x", .int 0)])])]

/-- Counterexample to claim C7 as stated: the claim says every
nested-structure value (object or array) is dropped by the ADD extraction,
but `fetch_insert_data` only filters `isinstance(v, dict)`: the array-valued
key `"b"` is retained. -/
theorem C7_counterexample_array_kept :
    fetch_insert_data c7Body = .ok [("a", .int 1), ("b", .arr [.int 1, .int 2])]
    ∧ aget ((fetch_insert_data c7Body).toOption.getD []) "b" =
        some (.arr [.int 1, .int 2]) :=
  ⟨rfl, rfl⟩

theorem insert_fold_not_mem (entity : List (String × Value)) (k : String) :
    ∀ acc : AList Value, k ∉ akeys entity →
      aget (entity.foldl
        (fun acc p => if p.2.isObject then acc else aset acc p.1 p.2) acc) k = aget acc k := by
  induction entity with
  | nil => intro acc _; rfl
  | cons p rest ih =>
      intro acc hk
      rw [akeys_cons, List.mem_cons, not_or] at hk
      rw [List.foldl_cons, ih _ hk.2]
      cases hobj : p.2.isObject with
      | true => simp [hobj]
      | false =>
          simp only [hobj, Bool.false_eq_true, if_false]
          exact aget_aset_ne acc p.1 k p.2 hk.1

theorem insert_fold_aget (entity : List (String × Value)) (k : String) :
    ∀ acc : AList Value, KeysNodup entity → aget acc k = none →
      aget (entity.foldl
        (fun acc p => if p.2.isObject then acc else aset acc p.1 p.2) acc) k =
        (aget entity k).bind (fun v => if v.isObject then none else some v) := by
  induction entity with
  | nil =>
      intro acc _ hacc
      simpa [aget] using hacc
  | cons p rest ih =>
      intro acc hnd hacc
      obtain ⟨pk, pv⟩ := p
      have hpk : pk ∉ akeys rest := (List.nodup_cons.mp hnd).1
      have hndr : KeysNodup rest := (List.nodup_cons.mp hnd).2
      rw [List.foldl_cons]
      by_cases hk : pk = k
      · subst hk
        rw [insert_fold_not_mem rest pk _ hpk, aget_cons, if_pos rfl]
        cases hobj : pv.isObject with
        | true => simpa [hobj] using hacc
        | false => simp [hobj, aget_aset_self]
      · rw [aget_cons, if_neg hk]
        have hacc2 : aget (if pv.isObject = true then acc else aset acc pk pv) k = none := by
          cases hobj : pv.isObject with
          | true => simpa using hacc
          | false => simpa [aget_aset_ne _ _ _ _ (fun hh => hk hh.symm)] using hacc
        simpa using ih _ hndr hacc2

/-- Claim C7, amended: the ADD extraction returns exactly the entity keys
whose values are not JSON objects (`dict` instances); array-valued keys are
retained, only object-valued keys are dropped. -/
theorem C7_insert_extraction_drops_only_objects (body : AList Value)
    (entity : List (String × Value))
    (hb : aget body "entity" = some (.obj entity)) (hnd : KeysNodup entity) :
    ∃ d, fetch_insert_data body = .ok d ∧
      ∀ k, aget d k = (aget entity k).bind
        (fun v => if v.isObject then none else some v) := by
  refine ⟨entity.foldl (fun acc p => if p.2.isObject then acc else aset acc p.1 p.2) [], ?_, ?_⟩
  · unfold fetch_insert_data
    rw [hb]
  · intro k
    exact insert_fold_aget entity k [] hnd rfl

/-- Witness for the amended C7 at the concrete body `c7Body`. -/
theorem C7_insert_extraction_drops_only_objects_witness :
    ∃ d, fetch_insert_data c7Body = .ok d ∧
      ∀ k, aget d k =
        (aget [("a", Value.int 1), ("b", Value.arr [.int 1, .int 2]),
               ("c", Value.obj [("x", .int 0)])] k).bind
          (fun v => if v.isObject then none else some v) :=
  C7_insert_extraction_drops_only_objects c7Body
    [("a", .int 1), ("b", .arr [.int 1, .int 2]), ("c", .obj [("x", .int 0)])]
    rfl (by unfold KeysNodup; decide)

/-- Specification-side description of one MODIFY-extraction step for a fixed
key `k`: a well-formed modification entry for `k` replaces the running value
with its `new_value` (later entries win). -/
def lnv_step (k : String) (acc : Option Value) (m : Value) : Option Value :=
  match m with
  | .obj mm =>
      match aget mm "key" with
      | some (.str k2) =>
          if k2 = k then
            match aget mm "new_value" with
            | some nv => some nv
            | none => acc
          else acc
      | _ => acc
  | _ => acc

/-- Specification-side value of key `k` after the MODIFY extraction: the
`new_value` of the last modification entry for `k` (if any). -/
def last_new_value (mods : List Value) (k : String) : Option Value :=
  mods.foldl (lnv_step k) none

theorem lnv_step_shift (k : String) (s : Option Value) (m : Value) :
    lnv_step k s m = (lnv_step k none m).or s := by
  unfold lnv_step
  cases m with
  | obj mm =>
      dsimp only
      cases hk : aget mm "key" with
      | none => simp [Option.or]
      | some kv =>
          cases kv with
          | str k2 =>
              dsimp only
              by_cases h2 : k2 = k
              · rw [if_pos h2, if_pos h2]
                cases aget mm "new_value" <;> simp [Option.or]
              · rw [if_neg h2, if_neg h2]; simp [Option.or]
          | int n => simp [Option.or]
          | null => simp [Option.or]
          | bool b => simp [Option.or]
          | arr l => simp [Option.or]
          | obj l => simp [Option.or]
  | str s2 => simp [Option.or]
  | int n => simp [Option.or]
  | null => simp [Option.or]
  | bool b => simp [Option.or]
  | arr l => simp [Option.or]

theorem lnv_fold_shift (mods : List Value) (k : String) :
    ∀ s : Option Value,
      mods.foldl (lnv_step k) s = (mods.foldl (lnv_step k) none).or s := by
  induction mods with
  | nil => intro s; simp [Option.or]
  | cons m rest ih =>
      intro s
      rw [List.foldl_cons, List.foldl_cons, ih (lnv_step k s m),
          ih (lnv_step k none m), lnv_step_shift k s m, option_or_assoc]

theorem update_fold_geom (mods : List Value) :
    ∀ acc d : AList Value, update_fold acc mods = .ok d →
      aget acc "geometrie" = none → aget d "geometrie" = none := by
  induction mods with
  | nil =>
      intro acc d h hacc
      unfold update_fold at h
      injection h with h
      rw [← h]; exact hacc
  | cons m rest ih =>
      intro acc d h hacc
      unfold update_fold at h
      cases hstep : update_step acc m with
      | error e => rw [hstep] at h; exact absurd h (by simp)
      | ok acc2 =>
          rw [hstep] at h
          rcases update_step_shape acc m acc2 hstep with h2 | ⟨k2, nv, hk2, h2⟩
          · exact ih acc2 d h (h2 ▸ hacc)
          · refine ih acc2 d h ?_
            rw [h2, aget_aset_ne acc k2 "geometrie" nv (fun hh => hk2 hh.symm)]
            exact hacc

theorem update_step_lnv (acc acc2 : AList Value) (m : Value) (k : String)
    (hk : k ≠ "geometrie") (h : update_step acc m = .ok acc2) :
    aget acc2 k = (lnv_step k none m).or (aget acc k) := by
  unfold update_step at h
  unfold lnv_step
  cases m with
  | obj mm =>
      dsimp only at h ⊢
      cases hkey : aget mm "key" with
      | none => rw [hkey] at h; exact absurd h (by simp)
      | some kv =>
          rw [hkey] at h
          cases kv with
          | str k2 =>
              dsimp only at h ⊢
              by_cases h2 : k2 = "geometrie"
              · rw [if_pos h2] at h
                injection h with h
                rw [if_neg (fun hh : k2 = k => hk (hh ▸ h2 : k = "geometrie"))]
                rw [← h]
                simp [Option.or]
              · rw [if_neg h2] at h
                cases hnv : aget mm "new_value" with
                | none => rw [hnv] at h; exact absurd h (by simp)
                | some nv =>
                    rw [hnv] at h
                    injection h with h
                    rw [← h]
                    by_cases h3 : k2 = k
                    · subst h3
                      rw [if_pos rfl, aget_aset_self]
                      simp [Option.or]
                    · rw [if_neg h3, aget_aset_ne acc k2 k nv (fun hh => h3 hh.symm)]
                      simp [Option.or]
          | int n => exact absurd h (by simp)
          | null => exact absurd h (by simp)
          | bool b => exact absurd h (by simp)
          | arr l => exact absurd h (by simp)
          | obj l => exact absurd h (by simp)
  | str s => exact absurd h (by simp [update_step])
  | int n => exact absurd h (by simp [update_step])
  | null => exact absurd h (by simp [update_step])
  | bool b => exact absurd h (by simp [update_step])
  | arr l => exact absurd h (by simp [update_step])

theorem update_fold_aget (mods : List Value) (k : String) (hk : k ≠ "geometrie") :
    ∀ acc d : AList Value, update_fold acc mods = .ok d →
      aget d k = (mods.foldl (lnv_step k) none).or (aget acc k) := by
  induction mods with
  | nil =>
      intro acc d h
      unfold update_fold at h
      injection h with h
      rw [← h]
      simp [Option.or]
  | cons m rest ih =>
      intro acc d h
      unfold update_fold at h
      cases hstep : update_step acc m with
      | error e => rw [hstep] at h; exact absurd h (by simp)
      | ok acc2 =>
          rw [hstep] at h
          rw [List.foldl_cons, lnv_fold_shift rest k (lnv_step k none m),
              option_or_assoc, ih acc2 d h, update_step_lnv acc acc2 m k hk hstep]

/-- Claim C8: the MODIFY extraction maps each modification entry's key to its
`new_value` (later entries winning), except that entries whose key equals the
geometry field name `geometrie` are unconditionally skipped — the geometry
field is never present in the extracted mapping. -/
theorem C8_modify_extraction (body : AList Value) (mods : List Value) (d : AList Value)
    (hb : aget body "modifications" = some (.arr mods))
    (h : fetch_update_data body = .ok d) :
    aget d "geometrie" = none
    ∧ ∀ k, k ≠ "geometrie" → aget d k = last_new_value mods k := by
  unfold fetch_update_data at h
  rw [hb] at h
  dsimp only at h
  constructor
  · exact update_fold_geom mods [] d h rfl
  · intro k hk
    rw [update_fold_aget mods k hk [] d h]
    unfold last_new_value
    cases List.foldl (lnv_step k) none mods <;> simp [aget, Option.or]

/-- Witness for C8 at the demonstration MODIFY body. -/
theorem C8_modify_extraction_witness :
    aget demoModifyDec0 "geometrie" = none
    ∧ ∀ k, k ≠ "geometrie" →
        aget demoModifyDec0 k =
          last_new_value
            [.obj [("key", .str "code"), ("new_value", .str "AA02"),
                   ("old_value", .str "AA01")],
             .obj [("key", .str "geometrie"), ("new_value", .str "POLYGON((2 2))")]] k :=
  C8_modify_extraction demoModifyBody
    [.obj [("key", .str "code"), ("new_value", .str "AA02"), ("old_value", .str "AA01")],
     .obj [("key", .str "geometrie"), ("new_value", .str "POLYGON((2 2))")]]
    demoModifyDec0 rfl rfl

/-- Claim C2: merge semantics of the projection.  For an ADD event the
resulting fields are the type-derived empty template shallow-overlaid with
the (geo-decorated) extracted fields, extracted values winning; for a MODIFY
event with prior fields supplied, the resulting fields are the shallow union
of the prior fields with the (geo-decorated) extracted fields, extracted
values winning on key collision.  The template maps a `string`-typed field to
the empty string, `number`/`integer`/geojson-typed fields to `null`, and
omits fields of unrecognized type entirely. -/
theorem C2_add_modify_merge_semantics :
    (∀ (datasets : List DatasetSchema) (mkey : Option String) (hdrs : Headers)
        (body : AList Value) (prior : Option (AList Value)) (b : Blob)
        (entity tmpl dec : AList Value),
        process_message datasets mkey hdrs body prior = .ok b →
        ((hdrs.event_type = "ADD" →
            fetch_insert_data body = .ok entity →
            (fetch_empty_blob datasets hdrs.catalog hdrs.collection).map Blob.fields =
              .ok tmpl →
            apply_geo_rewrite datasets hdrs.catalog hdrs.collection entity = .ok dec →
            ∀ k, aget b.fields k = (aget dec k).or (aget tmpl k))
         ∧ (∀ p : AList Value, hdrs.event_type = "MODIFY" → prior = some p →
            fetch_update_data body = .ok entity →
            apply_geo_rewrite datasets hdrs.catalog hdrs.collection entity = .ok dec →
            ∀ k, aget b.fields k = (aget dec k).or (aget p k))))
    ∧ (∀ (table : SchemaTable) (f : SchemaField),
        (table.fields.map SchemaField.name).Nodup → f ∈ table.fields →
        aget (fetch_empty_blob_fields table) f.name =
          (if f.type = "string" then some (Value.str "")
           else if f.type = "number" then some Value.null
           else if f.type = "integer" then some Value.null
           else if strContains f.type "geojson" then some Value.null
           else none)) := by
  constructor
  · intro datasets mkey hdrs body prior b entity tmpl dec hok
    obtain ⟨et, cat, coll⟩ := hdrs
    constructor
    · intro het hfi htm hgr
      have het2 : et = "ADD" := het
      subst het2
      rw [process_message_add_eq, hfi] at hok
      dsimp only at hok
      cases hfe : fetch_empty_blob datasets cat coll with
      | error e => rw [hfe] at hok; exact absurd hok (by simp)
      | ok blob0 =>
          rw [hfe] at hok
          dsimp only at hok
          rw [hfe] at htm
          unfold Except.map at htm
          dsimp only at htm
          injection htm with htm
          cases hds : datasetsById datasets cat with
          | none => rw [hds] at hok; exact absurd hok (by simp)
          | some ds =>
              rw [hds] at hok
              dsimp only at hok
              cases hgt : get_table_by_id ds coll with
              | none => rw [hgt] at hok; exact absurd hok (by simp)
              | some table =>
                  rw [hgt] at hok
                  dsimp only at hok
                  cases hiv : identifier_value entity table.identifier with
                  | error e => rw [hiv] at hok; exact absurd hok (by simp)
                  | ok idv =>
                      rw [hiv] at hok
                      dsimp only at hok
                      rw [hgr] at hok
                      dsimp only at hok
                      injection hok with hok
                      intro k
                      rw [← hok]
                      unfold fetch_updated_blob
                      dsimp only
                      rw [aget_amerge, htm]
                      have hnodup : KeysNodup dec := by
                        unfold apply_geo_rewrite at hgr
                        exact geo_loop_nodup datasets cat _ entity dec hgr
                          (fetch_insert_data_nodup body entity hfi)
                      rw [agetLast_eq_aget hnodup]
    · intro p het hpr hfu hgr
      have het2 : et = "MODIFY" := het
      subst het2
      subst hpr
      rw [process_message_modify_eq, hfu] at hok
      dsimp only at hok
      rw [hgr] at hok
      dsimp only at hok
      injection hok with hok
      intro k
      rw [← hok]
      unfold fetch_updated_blob
      dsimp only
      rw [aget_amerge]
      have hnodup : KeysNodup dec := by
        unfold apply_geo_rewrite at hgr
        exact geo_loop_nodup datasets cat _ entity dec hgr
          (fetch_update_data_nodup body entity hfu)
      rw [agetLast_eq_aget hnodup]
  · intro table f hnd hf
    have hchar := template_fold_mem table.fields f [] hnd hf
    unfold fetch_empty_blob_fields
    rw [hchar]
    by_cases h1 : f.type = "string"
    · rw [h1]; rfl
    · by_cases h2 : f.type = "number"
      · rw [h2]; rfl
      · by_cases h3 : f.type = "integer"
        · rw [h3]; rfl
        · have hev : aget EMPTY_VALUES f.type = none := by
            unfold EMPTY_VALUES
            rw [aget_cons, if_neg (fun hh => h1 hh.symm), aget_cons,
                if_neg (fun hh => h2 hh.symm), aget_cons, if_neg (fun hh => h3 hh.symm)]
            rfl
          rw [hev, if_neg h1, if_neg h2, if_neg h3]
          rfl

/-- Witness for C2 at the demonstration ADD and MODIFY events, plus the
template characterization at the demonstration table's fields. -/
theorem C2_add_modify_merge_semantics_witness :
    (aget demoAddBlob.fields "code" =
      ((aget demoAddDec "code").or (aget demoAddTemplate "code")))
    ∧ (aget demoModifyBlob.fields "code" =
      ((aget demoModifyDec "code").or (aget demoPriorFields "code")))
    ∧ (aget (fetch_empty_blob_fields bouwblokkenTable) volgnummerField.name =
        (if volgnummerField.type = "string" then some (Value.str "")
         else if volgnummerField.type = "number" then some Value.null
         else if volgnummerField.type = "integer" then some Value.null
         else if strContains volgnummerField.type "geojson" then some Value.null
         else none)) := by
  refine ⟨?_, ?_, ?_⟩
  · exact ((C2_add_modify_merge_semantics.1 [gebieden] (some "mk") demoAddHeaders
      demoAddBody none demoAddBlob demoAddEntity demoAddTemplate demoAddDec rfl).1
      rfl rfl rfl rfl) "code"
  · exact ((C2_add_modify_merge_semantics.1 [gebieden] (some "mk") demoModifyHeaders
      demoModifyBody (some demoPriorFields) demoModifyBlob demoModifyDec0 []
      demoModifyDec rfl).2 demoPriorFields rfl rfl rfl rfl) "code"
  · exact C2_add_modify_merge_semantics.2 bouwblokkenTable volgnummerField
      (by decide) (by decide)

/-- A second demonstration dataset with a multi-segment CRS string. -/
def tweeDs : DatasetSchema :=
  { id := "twee", crs := "urn:ogc:28992",
    tables := [{ id := "u", identifier := ["id"],
                 fields := [{ name := "id", type := "string", is_geo := false },
                            { name := "geo2", type := "geojson", is_geo := true }] }] }

/-- ADD body for `tweeDs`. -/
def tweeBody : AList Value :=
  [("entity", .obj [("id", .str "1"), ("geo2", .str "POLYGON((2 2))")])]

/-- Counterexample to claim C3 as stated.  (a) With two datasets loaded
(`gebieden` first, `tweeDs` last), the geo field of the FIRST dataset is not
rewritten at all — `EventsProcessor.__init__` rebuilds `self.geo_fields`
inside its dataset loop, so only the last dataset's registry survives.
(b) With a multi-segment CRS `urn:ogc:28992`, the srid used is `"ogc"` — the
segment at index 1 of `split(":")` — while the last segment (what the claim
prescribes) is `"28992"`. -/
theorem C3_counterexample_geo_rewrite :
    (process_message [gebieden, tweeDs] (some "mk") demoAddHeaders demoAddBody none).map
        (fun b => aget b.fields "geometrie") = .ok (some (.str "POLYGON((1 1))"))
    ∧ (process_message [tweeDs] (some "mk")
          { event_type := "ADD", catalog := "twee", collection := "u" } tweeBody none).map
        (fun b => aget b.fields "geo2") = .ok (some (.str "SRID=ogc;POLYGON((2 2))"))
    ∧ (pySplit "urn:ogc:28992" colonChar).getLast? = some "28992"
    ∧ ("ogc" : String) ≠ "28992" :=
  ⟨rfl, rfl, rfl, by decide⟩

/-- Claim C3, amended: only the geo fields of the dataset registered last
survive in the processor's geo registry; for a field of that registry with a
non-null extracted value, the value is rewritten to `SRID={srid};{value}`
where srid is the segment at index 1 of the dataset's CRS split on `":"`
(for a two-segment CRS such as `EPSG:28992` this coincides with the last
segment and yields `SRID=28992;...`). -/
theorem C3_geo_rewrite_amended (datasets : List DatasetSchema)
    (dataset_id table_id : String) (d d2 : AList Value) (f : String) (v : Value)
    (hnd : (geo_fields datasets dataset_id table_id).Nodup)
    (hf : f ∈ geo_fields datasets dataset_id table_id)
    (hv : aget d f = some v) (hnn : v.isNull = false)
    (h : apply_geo_rewrite datasets dataset_id table_id d = .ok d2) :
    ∃ ds srid, datasetsById datasets dataset_id = some ds ∧
      (pySplit ds.crs colonChar).get? 1 = some srid ∧
      aget d2 f = some (.str ("SRID=" ++ srid ++ ";" ++ pyStr v)) := by
  unfold apply_geo_rewrite at h
  exact geo_loop_mem datasets dataset_id _ f v d d2 hnd hf hv hnn h

/-- Input fields for the C3 witness. -/
def demoGeoIn : AList Value := [("geometrie", .str "POLYGON((1 1))")]

/-- Geo-decorated output fields for the C3 witness. -/
def demoGeoOut : AList Value :=
  (apply_geo_rewrite [gebieden] "gebieden" "bouwblokken" demoGeoIn).toOption.getD []

/-- Witness for the amended C3 at the single-dataset `gebieden`/`EPSG:28992`
configuration, recovering the claim's scenario `SRID=28992;POLYGON((...))`. -/
theorem C3_geo_rewrite_amended_witness :
    (∃ ds srid, datasetsById [gebieden] "gebieden" = some ds ∧
      (pySplit ds.crs colonChar).get? 1 = some srid ∧
      aget demoGeoOut "geometrie" =
        some (.str ("SRID=" ++ srid ++ ";" ++ pyStr (Value.str "POLYGON((1 1))"))))
    ∧ aget demoGeoOut "geometrie" = some (.str "SRID=28992;POLYGON((1 1))") :=
  ⟨C3_geo_rewrite_amended [gebieden] "gebieden" "bouwblokken" demoGeoIn demoGeoOut
      "geometrie" (.str "POLYGON((1 1))") (by decide) (by decide) rfl rfl rfl,
   rfl⟩

/-- A demonstration profile document. -/
def demoProfile : PermProfile := { scopes := ["S"], datasets := ["d"] }

/-- A demonstration dataset without tables, for the role-creation exhibit. -/
def emptyPermDataset : PermDataset := { id := "d", auth := .missing, tables := [] }

/-- Claim C5: the claim says dry-run mode produces the statement text of
every permission operation without executing any statement.  The code
violates this: `apply_schema_and_profile_permissions` calls
`create_acl_from_profiles` without the dry-run flag, so profile-derived
grants are executed against the engine even when `dry_run=True`; and
`create_acl_from_schema` calls `_create_role_if_not_exists` for a fixed role
without forwarding `dry_run`, so that CREATE ROLE is executed too (as is the
`pg_roles` catalog query). -/
theorem C5_dry_run_still_executes :
    (apply_schema_and_profile_permissions (fun s => s) {} [] ["d_t1"] []
        [demoProfile] "r" "S" true false).executed =
      [Stmt.grantStmt ["SELECT"] "d_t1" "r" "public"]
    ∧ (apply_schema_and_profile_permissions (fun s => s) {} [] []
        [emptyPermDataset] [] "r" "S" true true).executed =
      [Stmt.queryScopeRoles, Stmt.createRoleStmt "r"] :=
  ⟨by rfl, by rfl⟩

/-- A demonstration permission dataset: one table with table scope `TS`, one
field carrying its own scope `FS` and two plain fields. -/
def dsPermDemo : PermDataset :=
  { id := "d", auth := .missing,
    tables := [{ id := "t", auth := .one "TS",
                 fields := [{ name := "secret", auth := .one "FS" },
                            { name := "plain1", auth := .missing },
                            { name := "plain2", auth := .missing }] }] }

/-- Counterexample to claim C4 as stated: when a field declares an override,
the remaining non-overridden fields are NOT granted together in one
column-list SELECT grant — the code issues one separate single-column grant
per remaining field (every emitted grant carries exactly one privilege
item). -/
theorem C4_counterexample_no_combined_grant :
    (create_acl_from_schema (fun s => s) {} dsPermDemo "r" "TS" false false).executed =
      [Stmt.grantStmt ["SELECT (plain1)"] "d_t" "r" "public",
       Stmt.grantStmt ["SELECT (plain2)"] "d_t" "r" "public"]
    ∧ ((create_acl_from_schema (fun s => s) {} dsPermDemo "r" "TS" false false).executed.all
        (fun s => match s with
          | Stmt.grantStmt privs _ _ _ => decide (privs.length = 1)
          | _ => true)) = true :=
  ⟨by rfl, by rfl⟩

/-- The demonstration table of C4 with schematic scopes. -/
def permTableG (sF sT : String) : PermDataset :=
  { id := "d", auth := .missing,
    tables := [{ id := "t", auth := .one sT,
                 fields := [{ name := "secret", auth := .one sF },
                            { name := "plain1", auth := .missing },
                            { name := "plain2", auth := .missing }] }] }

/-- Claim C4, amended: a field declaring its own auth scope set is granted as
a column-level SELECT only to roles resolved from that field scope set — a
role requesting only the table scope `sT` receives grants for exactly the
remaining fields (one separate single-column SELECT grant per field, never a
combined column-list grant) and nothing mentioning the overridden column,
while a role requesting the field scope `sF` receives exactly the overridden
field's column grant. -/
theorem C4_field_override_precedence (sF sT r : String)
    (hne : sF ≠ sT) (hF : sF ≠ "") (hT : sT ≠ "") (hr : r ≠ "AUTO") :
    (create_acl_from_schema (fun s => s) {} (permTableG sF sT) r sT false false).executed =
      [Stmt.grantStmt ["SELECT (plain1)"] "d_t" r "public",
       Stmt.grantStmt ["SELECT (plain2)"] "d_t" r "public"]
    ∧ (create_acl_from_schema (fun s => s) {} (permTableG sF sT) r sF false false).executed =
      [Stmt.grantStmt ["SELECT (secret)"] "d_t" r "public"] := by
  have hFb : (sF == "") = false := beq_eq_false_iff_ne.mpr hF
  have hTb : (sT == "") = false := beq_eq_false_iff_ne.mpr hT
  have hTF : sT ≠ sF := fun hh => hne hh.symm
  constructor
  · simp [create_acl_from_schema, permTableG, resolve_grantees, _execute_grant,
      Auth.truthy, Auth.scopeSet, dedupFirst, PUBLIC_SCOPE, hFb, hTb, hr, hne, hTF]
  · simp [create_acl_from_schema, permTableG, resolve_grantees, _execute_grant,
      Auth.truthy, Auth.scopeSet, dedupFirst, PUBLIC_SCOPE, hFb, hTb, hr, hne, hTF]

/-- Witness for the amended C4 at concrete scopes `FS`/`TS` and role `r0`. -/
theorem C4_field_override_precedence_witness :
    (create_acl_from_schema (fun s => s) {} (permTableG "FS" "TS") "r0" "TS"
        false false).executed =
      [Stmt.grantStmt ["SELECT (plain1)"] "d_t" "r0" "public",
       Stmt.grantStmt ["SELECT (plain2)"] "d_t" "r0" "public"]
    ∧ (create_acl_from_schema (fun s => s) {} (permTableG "FS" "TS") "r0" "FS"
        false false).executed =
      [Stmt.grantStmt ["SELECT (secret)"] "d_t" "r0" "public"] :=
  C4_field_override_precedence "FS" "TS" "r0" (by decide) (by decide) (by decide) (by decide)

end SchemaTools
